import Mathlib

/-!
Verification of the concerto-rs schema-language parser.

The development shallowly embeds the two parsing stacks of the repository:

* the nom-based property parsers (`integer_property`, `long_property` and their
  clause sub-parsers) as functions `List Char → Option (List Char × α)`,
  mirroring nom's `IResult<&str, T>` with the remainder first;
* the pest-based namespace / semver functions as functions over an explicit
  `Pair` tree type mirroring `pest::iterators::Pair`.

The repository's `concerto.pest` grammar file and the modules
`parser/common/{keywords,numeric}.rs` and `parser/property/internal.rs` are not
part of the available sources; definitions for them are modelled from the
specification and carry a doc comment starting with `Modelled from the spec:`.
Everything else is translated directly from the Rust sources.
-/

namespace Concerto

/-- Splits a character list at the longest prefix satisfying `p`. -/
def span (p : Char → Bool) : List Char → List Char × List Char
  | [] => ([], [])
  | c :: cs =>
    if p c then
      let (a, b) := span p cs
      (c :: a, b)
    else ([], c :: cs)

/-- Decimal value of a digit string. -/
def digitsToNat (ds : List Char) : Nat :=
  ds.foldl (fun acc c => 10 * acc + (c.toNat - 48)) 0

/-- Shallow embedding of nom's `IResult<&str, T>` specialised to complete
input: a parser takes the remaining input and returns `none` on a recoverable
error or `some (remainder, value)` on success, exactly nom's `Ok((remains, value))`
convention. -/
def NomP (α : Type) : Type := List Char → Option (List Char × α)

/-- Horizontal whitespace recognised by nom's `space0`/`space1`: space and tab. -/
def isSpaceChar (c : Char) : Bool := c == ' ' || c == '\t'

/-- nom `space1`: one or more spaces/tabs. -/
def space1 : NomP Unit := fun input =>
  let (sp, rest) := span isSpaceChar input
  if sp.isEmpty then none else some (rest, ())

/-- nom `space0`: zero or more spaces/tabs, never fails. -/
def space0 : NomP Unit := fun input =>
  let (_, rest) := span isSpaceChar input
  some (rest, ())

/-- nom `char(c)`: matches exactly the character `c`. -/
def chP (c : Char) : NomP Char := fun input =>
  match input with
  | [] => none
  | x :: xs => if x == c then some (xs, c) else none

/-- nom `tag(s)`: matches the literal string `s`. -/
def tagP (s : String) : NomP String := fun input =>
  if s.toList.isPrefixOf input then some (input.drop s.toList.length, s) else none

namespace keywords

/-- Modelled from the spec: `parser/common/keywords.rs` is not among the
available sources; §4.1 describes keyword matchers that consume exactly the
matched keyword or fail without consuming. -/
def range : NomP String := tagP "range"

/-- Modelled from the spec: keyword matcher for the `optional` meta-clause
keyword (§4.1, §4.4). -/
def optional : NomP String := tagP "optional"

/-- Modelled from the spec: keyword matcher for the `default` meta-clause
keyword (§4.1, §4.4). -/
def default : NomP String := tagP "default"

end keywords

/-- Modelled from the spec: `parser/common/numeric.rs` is not among the
available sources; §4.1 describes a signed numeric literal matcher of a given
width that consumes exactly the matched literal or fails without consuming.
The width is given by the inclusive bounds `lo`/`hi`. -/
def signed_value (lo hi : Int) : NomP Int := fun input =>
  let (neg, rest) :=
    match input with
    | '-' :: t => (true, t)
    | t => (false, t)
  let (ds, rest2) := span Char.isDigit rest
  if ds.isEmpty then none
  else
    let n : Int := Int.ofNat (digitsToNat ds)
    let v := if neg then -n else n
    if lo ≤ v ∧ v ≤ hi then some (rest2, v) else none

/-- Modelled from the spec: the 32-bit signed integer literal parser
`numeric::integer_value`. -/
def integer_value : NomP Int := signed_value (-(2 ^ 31)) (2 ^ 31 - 1)

/-- Modelled from the spec: the 64-bit signed integer literal parser
`numeric::long_value`. -/
def long_value : NomP Int := signed_value (-(2 ^ 63)) (2 ^ 63 - 1)

/-- The scalar-kind selector passed to `primitive_property`
(`property/internal.rs`). -/
inductive PrimitiveType where
  | IntegerPropertyType
  | LongPropertyType
deriving DecidableEq

/-- Type keyword spelled in a property header for each scalar kind. -/
def PrimitiveType.keyword : PrimitiveType → String
  | .IntegerPropertyType => "Integer"
  | .LongPropertyType => "Long"

/-- Modelled from the spec: identifier lexeme for property names (§4.3); a
letter or underscore followed by letters, digits or underscores. -/
def identP : NomP String := fun input =>
  match input with
  | [] => none
  | c :: cs =>
    if c.isAlpha || c == '_' then
      let (tl, rest) := span (fun d => d.isAlphanum || d == '_') cs
      some (rest, String.mk (c :: tl))
    else none

/-- Modelled from the spec: `internal::primitive_property` from
`parser/property/internal.rs` is not among the available sources; §4.3 gives
the property header grammar
`'o' <ws>+ <TypeKeyword> ('[' <ws>* ']')? <ws>+ <identifier>` returning
`(name, is_array)`. -/
def primitive_property (t : PrimitiveType) : NomP (String × Bool) := fun input => do
  let (r1, _) ← chP 'o' input
  let (r2, _) ← space1 r1
  let (r3, _) ← tagP t.keyword r2
  let (r4, isArr) :=
    match chP '[' r3 with
    | none => (r3, false)
    | some (ra, _) =>
      match (do
        let (rb, _) ← space0 ra
        let (rc, _) ← chP ']' rb
        pure (rc, ()) : Option (List Char × Unit)) with
      | none => (r3, false)
      | some (rc, _) => (rc, true)
  let (r5, _) ← space1 r4
  let (r6, name) ← identP r5
  pure (r6, (name, isArr))

/-- The generic two-sided optional range value of `property/internal.rs`.
The field `stop` embeds the Rust field `end` (a Lean keyword). -/
structure Ranged (α : Type) where
  start : Option α
  stop : Option α
deriving DecidableEq

/-- nom `opt(p)`: applies `p`, succeeding with `none` and no input consumed
when `p` fails. -/
def optP {α : Type} (p : NomP α) : NomP (Option α) := fun input =>
  match p input with
  | none => some (input, none)
  | some (r, a) => some (r, some a)

/-- Modelled from the spec: `internal::ranged_parser` from
`parser/property/internal.rs` is not among the available sources; §4.2 gives
the clause grammar
`<keyword> <ws>* '=' <ws>* '[' <ws>* lower? <ws>* ',' <ws>* upper? <ws>* ']'`
parameterised by the element-value parser. -/
def rangedParser {α : Type} (kw : NomP String) (val : NomP α) : NomP (Ranged α) := fun input => do
  let (r1, _) ← kw input
  let (r2, _) ← space0 r1
  let (r3, _) ← chP '=' r2
  let (r4, _) ← space0 r3
  let (r5, _) ← chP '[' r4
  let (r6, _) ← space0 r5
  let (r7, lo) ← optP val r6
  let (r8, _) ← space0 r7
  let (r9, _) ← chP ',' r8
  let (r10, _) ← space0 r9
  let (r11, hi) ← optP val r10
  let (r12, _) ← space0 r11
  let (r13, _) ← chP ']' r12
  pure (r13, ⟨lo, hi⟩)

/-! ## Integer property (src/src/parser/property/integer_property.rs) -/

/-- The `IntegerDomainValidator` struct. -/
structure IntegerDomainValidator where
  lower : Option Int
  upper : Option Int
deriving DecidableEq

/-- `impl From<Ranged<i32>> for IntegerDomainValidator`. -/
def integerDomainValidatorOfRanged (r : Ranged Int) : IntegerDomainValidator :=
  ⟨r.start, r.stop⟩

/-- The `IntegerMetaProperty` enum. -/
inductive IntegerMetaProperty where
  | Default (x : Int)
  | Domain (d : IntegerDomainValidator)
  | Optional
deriving DecidableEq

/-- The `IntegerProperty` struct; `classTag` embeds the Rust field `class`
(a Lean keyword), serialised as `$class`. -/
structure IntegerProperty where
  classTag : String
  name : String
  is_optional : Bool
  is_array : Bool
  default_value : Option Int
  domain_validator : Option IntegerDomainValidator
deriving DecidableEq

/-- `integer_default_value`: `preceded(tuple((keywords::default, space0,
char('='), space0)), integer_value)`. -/
def integer_default_value : NomP Int := fun input => do
  let (r1, _) ← keywords.default input
  let (r2, _) ← space0 r1
  let (r3, _) ← chP '=' r2
  let (r4, _) ← space0 r3
  integer_value r4

/-- `integer_domain_validator`: `ranged_parser(input, keywords::range,
integer_value)` converted into an `IntegerDomainValidator`. -/
def integer_domain_validator : NomP IntegerDomainValidator := fun input =>
  match rangedParser keywords.range integer_value input with
  | none => none
  | some (remains, ranged) => some (remains, integerDomainValidatorOfRanged ranged)

/-- The `property_meta` alternation inside `integer_property`:
`alt((domain, default, optional))`, each branch preceded by `space1`.
The nom `context` wrappers only label errors and are dropped. -/
def integerPropertyMeta : NomP IntegerMetaProperty := fun input =>
  match (do
    let (r, _) ← space1 input
    integer_domain_validator r : Option (List Char × IntegerDomainValidator)) with
  | some (r, d) => some (r, .Domain d)
  | none =>
    match (do
      let (r, _) ← space1 input
      integer_default_value r : Option (List Char × Int)) with
    | some (r, x) => some (r, .Default x)
    | none =>
      match (do
        let (r, _) ← space1 input
        keywords.optional r : Option (List Char × String)) with
      | some (r, _) => some (r, .Optional)
      | none => none

/-- nom `fold_many_m_n(0, 3, p, Vec::new, push)`: applies `p` up to three
times, collecting the results in order and stopping without error at the
first failure. -/
def fold_many_0_3 {α : Type} (p : NomP α) : NomP (List α) := fun input =>
  match p input with
  | none => some (input, [])
  | some (r1, a1) =>
    match p r1 with
    | none => some (r1, [a1])
    | some (r2, a2) =>
      match p r2 with
      | none => some (r2, [a1, a2])
      | some (r3, a3) => some (r3, [a1, a2, a3])

/-- The record `integer_property` starts from: defaults everywhere, the name
and array flag from the header, and the fixed discriminant tag. -/
def initIntegerProperty (name : String) (isArr : Bool) : IntegerProperty :=
  ⟨"IntegerProperty", name, false, isArr, none, none⟩

/-- One step of the meta-property merge loop in `integer_property`. -/
def applyIntegerMeta (p : IntegerProperty) (m : IntegerMetaProperty) : IntegerProperty :=
  match m with
  | .Default x => { p with default_value := some x }
  | .Domain d => { p with domain_validator := some d }
  | .Optional => { p with is_optional := true }

/-- The `for meta_prop in meta_props` merge loop of `integer_property`:
clauses are applied in encounter order, later clauses of the same kind
overwriting earlier ones. -/
def apply_integer_metas (p : IntegerProperty) (ms : List IntegerMetaProperty) : IntegerProperty :=
  ms.foldl applyIntegerMeta p

/-- `integer_property`: header, then at most three meta clauses, then the
merge loop building the record. -/
def integer_property : NomP IntegerProperty := fun input => do
  let (r1, hdr) ← primitive_property .IntegerPropertyType input
  let (r2, metas) ← fold_many_0_3 integerPropertyMeta r1
  pure (r2, apply_integer_metas (initIntegerProperty hdr.1 hdr.2) metas)

/-- `integer_property` at the `&str` interface: remainder returned as a
`String`. -/
def integer_property_str (s : String) : Option (String × IntegerProperty) :=
  match integer_property s.toList with
  | none => none
  | some (r, p) => some (String.mk r, p)

/-! ## Long property (src/src/parser/property/long_property.rs) -/

/-- The `LongDomainValidator` struct. -/
structure LongDomainValidator where
  lower : Option Int
  upper : Option Int
deriving DecidableEq

/-- `impl From<Ranged<i64>> for LongDomainValidator`. -/
def longDomainValidatorOfRanged (r : Ranged Int) : LongDomainValidator :=
  ⟨r.start, r.stop⟩

/-- The `LongMetaProperty` enum. -/
inductive LongMetaProperty where
  | Default (x : Int)
  | Domain (d : LongDomainValidator)
  | Optional
deriving DecidableEq

/-- The `LongProperty` struct; `classTag` embeds the Rust field `class`. -/
structure LongProperty where
  classTag : String
  name : String
  is_optional : Bool
  is_array : Bool
  default_value : Option Int
  domain_validator : Option LongDomainValidator
deriving DecidableEq

/-- `long_default_value`. -/
def long_default_value : NomP Int := fun input => do
  let (r1, _) ← keywords.default input
  let (r2, _) ← space0 r1
  let (r3, _) ← chP '=' r2
  let (r4, _) ← space0 r3
  long_value r4

/-- `long_domain_validator`. -/
def long_domain_validator : NomP LongDomainValidator := fun input =>
  match rangedParser keywords.range long_value input with
  | none => none
  | some (remains, ranged) => some (remains, longDomainValidatorOfRanged ranged)

/-- The `property_meta` alternation inside `long_property`. -/
def longPropertyMeta : NomP LongMetaProperty := fun input =>
  match (do
    let (r, _) ← space1 input
    long_domain_validator r : Option (List Char × LongDomainValidator)) with
  | some (r, d) => some (r, .Domain d)
  | none =>
    match (do
      let (r, _) ← space1 input
      long_default_value r : Option (List Char × Int)) with
    | some (r, x) => some (r, .Default x)
    | none =>
      match (do
        let (r, _) ← space1 input
        keywords.optional r : Option (List Char × String)) with
      | some (r, _) => some (r, .Optional)
      | none => none

/-- The record `long_property` starts from. -/
def initLongProperty (name : String) (isArr : Bool) : LongProperty :=
  ⟨"LongProperty", name, false, isArr, none, none⟩

/-- One step of the meta-property merge loop in `long_property`. -/
def applyLongMeta (p : LongProperty) (m : LongMetaProperty) : LongProperty :=
  match m with
  | .Default x => { p with default_value := some x }
  | .Domain d => { p with domain_validator := some d }
  | .Optional => { p with is_optional := true }

/-- The merge loop of `long_property`. -/
def apply_long_metas (p : LongProperty) (ms : List LongMetaProperty) : LongProperty :=
  ms.foldl applyLongMeta p

/-- `long_property`. -/
def long_property : NomP LongProperty := fun input => do
  let (r1, hdr) ← primitive_property .LongPropertyType input
  let (r2, metas) ← fold_many_0_3 longPropertyMeta r1
  pure (r2, apply_long_metas (initLongProperty hdr.1 hdr.2) metas)

/-- `long_property` at the `&str` interface. -/
def long_property_str (s : String) : Option (String × LongProperty) :=
  match long_property s.toList with
  | none => none
  | some (r, p) => some (String.mk r, p)

/-! ## Pest pair trees (semver.rs, namespace.rs, mod.rs)

The grammar file `parser/concerto.pest` is not among the available sources.
Pairs produced by a pest parse are embedded as an explicit tree type; the
rules the missing grammar must define are reconstructed from the spec. -/

/-- Modelled from the spec: the grammar rules of the missing
`parser/concerto.pest`, as named in `mod.rs`, `namespace.rs` and `semver.rs`
and described in spec §4.6–§4.8.  Rules whose exact pest names never appear in
the sources (the numeric version component, the tag inside a prerelease/build
suffix, the intermediate qualified-namespace node) get fresh names here. -/
inductive Rule where
  | Model
  | EOI
  | Namespace
  | QualifiedNamespace
  | VersionedQualifiedNamespace
  | QualifiedName
  | SemVer
  | Version
  | MajorMinorPatchVersion
  | MajorMinorVersion
  | MajorVersion
  | VersionNumber
  | Prerelease
  | PrereleaseTag
  | Build
  | BuildTag
deriving DecidableEq

/-- Embedding of `pest::iterators::Pair`: the matched rule, the matched text
(`as_str`) and the inner pairs (`into_inner`). -/
inductive Pair where
  | mk (rule : Rule) (str : String) (inner : List Pair)

/-- `Pair::as_rule`. -/
def Pair.rule : Pair → Rule
  | .mk r _ _ => r

/-- `Pair::as_str`. -/
def Pair.str : Pair → String
  | .mk _ s _ => s

/-- `Pair::into_inner` as a list. -/
def Pair.inner : Pair → List Pair
  | .mk _ _ i => i

/-- Models Rust's `str::parse::<u32>().unwrap_or(0)` from `semver.rs`: a
non-empty all-digit string whose value fits in 32 bits yields its value, and
every failing parse — including a lexically valid numeral that overflows
`u32` — yields 0.  (Rust's parser also accepts a leading `+`, which the
version grammar never produces and which is omitted here.) -/
def parse_u32_or_zero (s : String) : Nat :=
  let cs := s.toList
  if cs ≠ [] ∧ cs.all Char.isDigit then
    let n := digitsToNat cs
    if n < 2 ^ 32 then n else 0
  else 0

/-- The `SemVer` struct of `semver.rs` (`u32` components as `Nat`). -/
structure SemVer where
  major : Nat
  minor : Nat
  patch : Nat
  prerelease : String
  build : String
deriving DecidableEq

/-- `SemVer::default()`. -/
def SemVer.init : SemVer := ⟨0, 0, 0, "", ""⟩

/-- One iteration of the `for part in pair.into_inner()` loop in `semver`.
`none` embeds a panic: the `unreachable!()` arms and the `ver[0]`/`ver[1]`/
`ver[2]` index accesses on a too-short vector. -/
def semverStep (sv : SemVer) (part : Pair) : Option SemVer :=
  match part.rule with
  | .Version =>
    match part.inner.head? with
    | none => some sv
    | some version =>
      match version.rule with
      | .MajorMinorPatchVersion =>
        match version.inner.map (fun r => parse_u32_or_zero r.str) with
        | a :: b :: c :: _ => some { sv with major := a, minor := b, patch := c }
        | _ => none
      | .MajorMinorVersion =>
        match version.inner.map (fun r => parse_u32_or_zero r.str) with
        | a :: b :: _ => some { sv with major := a, minor := b }
        | _ => none
      | .MajorVersion =>
        match version.inner.map (fun r => parse_u32_or_zero r.str) with
        | a :: _ => some { sv with major := a }
        | _ => none
      | _ => none
  | .Prerelease =>
    match part.inner.head? with
    | none => some sv
    | some pr => some { sv with prerelease := pr.str }
  | .Build =>
    match part.inner.head? with
    | none => some sv
    | some b => some { sv with build := b.str }
  | _ => none

/-- `semver` from `semver.rs`: folds the loop body over the inner pairs of a
`Rule::SemVer` pair, starting from `SemVer::default()`.  The function never
returns `Err`; `none` stands for a panic. -/
def semver (pair : Pair) : Option SemVer :=
  pair.inner.foldlM semverStep SemVer.init

/-- The `Namespace` struct of `namespace.rs`. -/
structure Namespace where
  name : String
  version : Option SemVer
deriving DecidableEq

/-- `Namespace::default()`. -/
def Namespace.init : Namespace := ⟨"", none⟩

/-- One iteration of the `for part in namespace_declaration.into_inner()`
loop in `namespace`; `none` embeds the `unreachable!()` arm (and a panic or
error from `semver`). -/
def namespaceStep (ns : Namespace) (part : Pair) : Option Namespace :=
  match part.rule with
  | .QualifiedName => some { ns with name := part.str }
  | .SemVer =>
    match semver part with
    | none => none
    | some v => some { ns with version := some v }
  | _ => none

/-- `namespace` from `namespace.rs` (named `namespaceOfPair` because
`namespace` is a Lean keyword): unwraps the qualified-namespace node and the
declaration beneath it, dispatching on the declaration's rule.  `none` embeds
the `unreachable!()` arms. -/
def namespaceOfPair (pair : Pair) : Option Namespace :=
  match pair.inner.head? with
  | some q =>
    match q.inner.head? with
    | some d =>
      match d.rule with
      | .VersionedQualifiedNamespace => d.inner.foldlM namespaceStep Namespace.init
      | .QualifiedName => some { Namespace.init with name := d.str }
      | _ => none
    | none => none
  | none => none

/-- The `Model` struct of `mod.rs`: it has no fields. -/
structure Model
deriving DecidableEq

/-! ### Modelled concrete grammar

String-level parsers reconstructing the pair trees the missing
`concerto.pest` grammar produces, so the pest pipeline can be evaluated on
concrete inputs. -/

/-- Modelled from the spec: a numeric version component, one or more digits. -/
def numTok (cs : List Char) : Option (List Char × List Char) :=
  let (d, r) := span Char.isDigit cs
  if d.isEmpty then none else some (d, r)

/-- A `VersionNumber` leaf pair. -/
def numPair (d : List Char) : Pair := .mk .VersionNumber (String.mk d) []

/-- Modelled from the spec: the version-shape rule (§3, §4.7) — greedy
`major ('.' minor ('.' patch)?)?` matching one of the three shape rules, with
the numeric components as inner pairs. -/
def pestVersionShape (cs : List Char) : Option (Pair × List Char) := do
  let (d1, r1) ← numTok cs
  match r1 with
  | '.' :: t =>
    match numTok t with
    | none => some (.mk .MajorVersion (String.mk d1) [numPair d1], r1)
    | some (d2, r2) =>
      match r2 with
      | '.' :: t2 =>
        match numTok t2 with
        | none =>
          some (.mk .MajorMinorVersion (String.mk (d1 ++ '.' :: d2))
            [numPair d1, numPair d2], r2)
        | some (d3, r3) =>
          some (.mk .MajorMinorPatchVersion (String.mk (d1 ++ '.' :: d2 ++ '.' :: d3))
            [numPair d1, numPair d2, numPair d3], r3)
      | _ =>
        some (.mk .MajorMinorVersion (String.mk (d1 ++ '.' :: d2))
          [numPair d1, numPair d2], r2)
  | _ => some (.mk .MajorVersion (String.mk d1) [numPair d1], r1)

/-- Modelled from the spec: the character class of prerelease/build tags
(letters, digits and hyphens). -/
def pestTagChars (cs : List Char) : List Char × List Char :=
  span (fun c => c.isAlphanum || c == '-') cs

/-- Modelled from the spec: the `SemVer` rule (§4.7) — a version shape,
optionally followed by `-prerelease` then `+build`, in that fixed order. -/
def pestSemVer (cs : List Char) : Option (Pair × List Char) := do
  let (shape, r1) ← pestVersionShape cs
  let versionPair := Pair.mk .Version shape.str [shape]
  let (preParts, r2) :=
    match r1 with
    | '-' :: t =>
      let (tag, rest) := pestTagChars t
      if tag.isEmpty then (([] : List Pair), r1)
      else
        ([Pair.mk .Prerelease (String.mk ('-' :: tag)) [.mk .PrereleaseTag (String.mk tag) []]],
          rest)
    | _ => ([], r1)
  let (buildParts, r3) :=
    match r2 with
    | '+' :: t =>
      let (tag, rest) := pestTagChars t
      if tag.isEmpty then (([] : List Pair), r2)
      else
        ([Pair.mk .Build (String.mk ('+' :: tag)) [.mk .BuildTag (String.mk tag) []]],
          rest)
    | _ => ([], r2)
  some (.mk .SemVer (String.mk (cs.take (cs.length - r3.length)))
    ([versionPair] ++ preParts ++ buildParts), r3)

/-- Modelled from the spec: an identifier segment of a qualified name. -/
def pestIdent (cs : List Char) : Option (List Char × List Char) :=
  match cs with
  | [] => none
  | c :: rest =>
    if c.isAlpha || c == '_' then
      let (tl, r) := span (fun d => d.isAlphanum || d == '_') rest
      some (c :: tl, r)
    else none

/-- Fuelled loop for the `('.' identifier)*` tail of a qualified name. -/
def pestQualifiedNameAux : Nat → List Char → List Char → List Char × List Char
  | 0, acc, rest => (acc, rest)
  | fuel + 1, acc, rest =>
    match rest with
    | '.' :: t =>
      match pestIdent t with
      | some (idc, r2) => pestQualifiedNameAux fuel (acc ++ '.' :: idc) r2
      | none => (acc, rest)
    | _ => (acc, rest)

/-- Modelled from the spec: the `QualifiedName` rule (§4.6) — one or more
dot-separated identifier segments; `as_str` is the full dotted name. -/
def pestQualifiedName (cs : List Char) : Option (Pair × List Char) := do
  let (idc, r) ← pestIdent cs
  let (nameChars, rest) := pestQualifiedNameAux r.length idc r
  some (.mk .QualifiedName (String.mk nameChars) [], rest)

/-- Modelled from the spec: the `Namespace` rule (§4.6) —
`'namespace' <ws>+ <qualified-name> ('@' <version>)?`, wrapped in the
intermediate qualified-namespace node that `namespace.rs` unwraps. -/
def pestNamespace (cs : List Char) : Option (Pair × List Char) :=
  if "namespace".toList.isPrefixOf cs then
    let r1 := cs.drop 9
    let (sp, r2) := span isSpaceChar r1
    if sp.isEmpty then none
    else
      match pestQualifiedName r2 with
      | none => none
      | some (qn, r3) =>
        match r3 with
        | '@' :: t =>
          match pestSemVer t with
          | none => none
          | some (sv, r4) =>
            let decl := Pair.mk .VersionedQualifiedNamespace (qn.str ++ "@" ++ sv.str) [qn, sv]
            some (.mk .Namespace ("namespace " ++ decl.str)
              [.mk .QualifiedNamespace decl.str [decl]], r4)
        | _ =>
          some (.mk .Namespace ("namespace " ++ qn.str)
            [.mk .QualifiedNamespace qn.str [qn]], r3)
  else none

/-- Whitespace the top-level rule may skip before end of input. -/
def isWsChar (c : Char) : Bool := c == ' ' || c == '\t' || c == '\n' || c == '\r'

/-- Modelled from the spec: the `Model` rule (§4.8) — exactly one namespace
declaration terminated by end of input, yielding the namespace pair and an
`EOI` pair. -/
def pestModel (cs : List Char) : Option Pair :=
  match pestNamespace cs with
  | none => none
  | some (ns, r) =>
    let (_, r2) := span isWsChar r
    if r2.isEmpty then some (.mk .Model (String.mk cs) [ns, .mk .EOI "" []]) else none

/-- One iteration of the `for part in model.into_inner()` loop in
`parse` (`mod.rs`): a `Namespace` part is only printed (the output is
discarded here), `EOI` is skipped, anything else is `unreachable!()`. -/
def parseStep (_u : Unit) (part : Pair) : Option Unit :=
  match part.rule with
  | .Namespace => some ()
  | .EOI => some ()
  | _ => none

/-- `parse` from `mod.rs`: runs the grammar on the whole input, walks the
parts of the model pair, and returns `Model::default()` — the loop never
stores the parsed namespace. `none` embeds both a grammar failure
(propagated with `?`) and the `unreachable!()` panic. -/
def parse (s : String) : Option Model :=
  match pestModel s.toList with
  | none => none
  | some mp =>
    match mp.inner.foldlM parseStep () with
    | none => none
    | some _ => some Model.mk

/-- The full semver pipeline on a string: the modelled grammar followed by
`semver`, as in the unit tests of `semver.rs`. -/
def semverParse (s : String) : Option SemVer :=
  match pestSemVer s.toList with
  | none => none
  | some (p, _) => semver p

/-- The full namespace pipeline on a string: the modelled grammar followed by
`namespace`, as in the unit tests of `namespace.rs`. -/
def namespaceParse (s : String) : Option Namespace :=
  match pestNamespace s.toList with
  | none => none
  | some (p, _) => namespaceOfPair p

/-! ## Serialization (serde attributes on the property structs) -/

/-- `impl From<&IntegerDomainValidator> for String` from
`integer_property.rs`: the external bracket string form of a range. -/
def stringFromIntegerDomainValidator (v : IntegerDomainValidator) : String :=
  match v.lower, v.upper with
  | none, none => ""
  | some lower, some upper => "[" ++ toString lower ++ ", " ++ toString upper ++ "]"
  | none, some upper => "[, " ++ toString upper ++ "]"
  | some lower, none => "[" ++ toString lower ++ ",]"

/-- `impl From<&LongDomainValidator> for String` from `long_property.rs`. -/
def stringFromLongDomainValidator (v : LongDomainValidator) : String :=
  match v.lower, v.upper with
  | none, none => ""
  | some lower, some upper => "[" ++ toString lower ++ ", " ++ toString upper ++ "]"
  | none, some upper => "[, " ++ toString upper ++ "]"
  | some lower, none => "[" ++ toString lower ++ ",]"

/-- Minimal JSON value type for the serde projection. -/
inductive Json where
  | str (s : String)
  | num (n : Int)
  | bool (b : Bool)
deriving DecidableEq

/-- The serde projection of `IntegerProperty`, field for field from its
attributes: declaration order, renames (`$class`, `isOptional`, `isArray`,
`default`, `range`), `skip_serializing_if = "Option::is_none"` on the default
and range fields, and the domain validator rendered through its `From`
string conversion. -/
def serialize_integer_property (p : IntegerProperty) : List (String × Json) :=
  [("$class", .str p.classTag), ("name", .str p.name),
   ("isOptional", .bool p.is_optional), ("isArray", .bool p.is_array)]
  ++ (match p.default_value with
      | some v => [("default", Json.num v)]
      | none => [])
  ++ (match p.domain_validator with
      | some d => [("range", Json.str (stringFromIntegerDomainValidator d))]
      | none => [])

/-- The serde projection of `LongProperty`, from its attributes. -/
def serialize_long_property (p : LongProperty) : List (String × Json) :=
  [("$class", .str p.classTag), ("name", .str p.name),
   ("isOptional", .bool p.is_optional), ("isArray", .bool p.is_array)]
  ++ (match p.default_value with
      | some v => [("default", Json.num v)]
      | none => [])
  ++ (match p.domain_validator with
      | some d => [("range", Json.str (stringFromLongDomainValidator d))]
      | none => [])

/-! ## Clause kinds and grammar wellformedness -/

/-- The three distinct meta-clause kinds (§4.4). -/
inductive MetaKind where
  | dflt
  | dom
  | opt
deriving DecidableEq

/-- Kind of an `IntegerMetaProperty` clause. -/
def integerMetaKind : IntegerMetaProperty → MetaKind
  | .Default _ => .dflt
  | .Domain _ => .dom
  | .Optional => .opt

/-- Kind of a `LongMetaProperty` clause. -/
def longMetaKind : LongMetaProperty → MetaKind
  | .Default _ => .dflt
  | .Domain _ => .dom
  | .Optional => .opt

/-- Modelled from the spec: shape of a pair produced by a successful match of
one of the three version-shape rules — the number of numeric components is
fixed by the matched sub-rule. -/
def wfVersionShape (v : Pair) : Bool :=
  match v.rule with
  | .MajorMinorPatchVersion => v.inner.length == 3
  | .MajorMinorVersion => v.inner.length == 2
  | .MajorVersion => v.inner.length == 1
  | _ => false

/-- Modelled from the spec: shape of one inner part of a `Rule::SemVer` pair:
a possibly-empty `Version` wrapper around one version shape, or a
`Prerelease`/`Build` suffix. -/
def wfSemVerPart (part : Pair) : Bool :=
  match part.rule with
  | .Version =>
    match part.inner with
    | [] => true
    | [v] => wfVersionShape v
    | _ => false
  | .Prerelease => true
  | .Build => true
  | _ => false

/-- Modelled from the spec: shape of a pair produced by a successful match of
`Rule::SemVer`. -/
def wfSemVerPair (p : Pair) : Bool :=
  p.rule == .SemVer && p.inner.all wfSemVerPart

/-- Modelled from the spec: shape of a pair produced by a successful match of
`Rule::Namespace` (§4.6) — a qualified-namespace node around either a bare
`QualifiedName` or a `VersionedQualifiedNamespace` holding the name and the
`@`-suffixed version. -/
def wfNamespacePair (p : Pair) : Bool :=
  p.rule == .Namespace &&
  match p.inner with
  | [q] =>
    match q.inner with
    | [d] =>
      match d.rule with
      | .QualifiedName => true
      | .VersionedQualifiedNamespace =>
        match d.inner with
        | [qn, sv] => qn.rule == .QualifiedName && sv.rule == .SemVer && wfSemVerPair sv
        | _ => false
      | _ => false
    | _ => false
  | _ => false

/-- Whether a namespace pair was written with an `@`-suffixed version: its
declaration node matched `Rule::VersionedQualifiedNamespace`. -/
def writtenWithVersion (p : Pair) : Bool :=
  match p.inner.head? with
  | some q =>
    match q.inner.head? with
    | some d => d.rule == .VersionedQualifiedNamespace
    | none => false
  | none => false

/-! ## Theorems -/

/-- C3: `long_property` on `o Long baz default='Hello' range=[,100]` succeeds
with no default value and no domain validator, leaving the whole text from
the malformed default clause onward as unconsumed remainder: the wrong-typed
default clause is rejected without being consumed, and left-to-right scanning
also keeps the otherwise-valid trailing range clause from being consumed. -/
theorem wrong_typed_default_unconsumed :
    long_property_str "o Long baz default='Hello' range=[,100]" =
      some (" default='Hello' range=[,100]",
        { classTag := "LongProperty", name := "baz", is_optional := false,
          is_array := false, default_value := none, domain_validator := none }) := by
  decide

/-- C6: the version parser accepts the three numeric shapes — major only,
major.minor, major.minor.patch — each optionally followed by a prerelease tag
and/or a build tag in that fixed order, with absent components defaulting to
0 and absent tags to the empty string. -/
theorem semver_three_shapes :
    semverParse "12.13.14-pre123+a" =
      some { major := 12, minor := 13, patch := 14, prerelease := "pre123", build := "a" } ∧
    semverParse "12.13" =
      some { major := 12, minor := 13, patch := 0, prerelease := "", build := "" } ∧
    semverParse "12" =
      some { major := 12, minor := 0, patch := 0, prerelease := "", build := "" } ∧
    semverParse "12.13-pre123+a" =
      some { major := 12, minor := 13, patch := 0, prerelease := "pre123", build := "a" } ∧
    semverParse "12-pre123+a" =
      some { major := 12, minor := 0, patch := 0, prerelease := "pre123", build := "a" } ∧
    semverParse "12+a" =
      some { major := 12, minor := 0, patch := 0, prerelease := "", build := "a" } := by
  refine ⟨by decide, by decide, by decide, by decide, by decide, by decide⟩

/-- C7: a numeric version component that is lexically valid but overflows
`u32` is silently replaced by 0 while the whole version parse still succeeds:
concretely for `4294967296` (2^32) in each position, and in general
`parse().unwrap_or(0)` yields 0 for any all-digit component of value
at least 2^32. -/
theorem semver_overflow_defaults_zero :
    semverParse "4294967296" =
      some { major := 0, minor := 0, patch := 0, prerelease := "", build := "" } ∧
    semverParse "4294967296.7" =
      some { major := 0, minor := 7, patch := 0, prerelease := "", build := "" } ∧
    semverParse "12.4294967296" =
      some { major := 12, minor := 0, patch := 0, prerelease := "", build := "" } ∧
    (∀ s : List Char, s ≠ [] → s.all Char.isDigit = true → 2 ^ 32 ≤ digitsToNat s →
      parse_u32_or_zero (String.mk s) = 0) := by
  refine ⟨by decide, by decide, by decide, ?_⟩
  intro s h1 h2 h3
  show (if s ≠ [] ∧ s.all Char.isDigit then
          if digitsToNat s < 2 ^ 32 then digitsToNat s else 0
        else 0) = 0
  rw [if_pos ⟨h1, h2⟩, if_neg (by omega)]

/-- C7 witness: the general overflow fact applied to the concrete component
`4294967296`. -/
theorem semver_overflow_defaults_zero_witness :
    parse_u32_or_zero (String.mk "4294967296".toList) = 0 :=
  semver_overflow_defaults_zero.2.2.2 "4294967296".toList (by decide) (by decide) (by decide)

/-- C5: the serialized string form of a domain validator is exactly
`"[L, U]"` with both bounds, `"[, U]"` with only the upper, `"[L,]"` with
only the lower and `""` with neither; and in the serde projection of a
property record the `default` field is present exactly when a default was
parsed and the `range` field exactly when a domain clause was parsed. -/
theorem range_string_form_and_projection :
    (∀ l u : Int, stringFromIntegerDomainValidator ⟨some l, some u⟩ =
      "[" ++ toString l ++ ", " ++ toString u ++ "]") ∧
    (∀ u : Int, stringFromIntegerDomainValidator ⟨none, some u⟩ = "[, " ++ toString u ++ "]") ∧
    (∀ l : Int, stringFromIntegerDomainValidator ⟨some l, none⟩ = "[" ++ toString l ++ ",]") ∧
    stringFromIntegerDomainValidator ⟨none, none⟩ = "" ∧
    stringFromIntegerDomainValidator ⟨some 0, some 10⟩ = "[0, 10]" ∧
    stringFromIntegerDomainValidator ⟨none, some 100⟩ = "[, 100]" ∧
    stringFromIntegerDomainValidator ⟨some 5, none⟩ = "[5,]" ∧
    (∀ p : IntegerProperty,
      (("default" ∈ (serialize_integer_property p).map Prod.fst) ↔ p.default_value.isSome) ∧
      (("range" ∈ (serialize_integer_property p).map Prod.fst) ↔ p.domain_validator.isSome)) ∧
    (∀ p : LongProperty,
      (("default" ∈ (serialize_long_property p).map Prod.fst) ↔ p.default_value.isSome) ∧
      (("range" ∈ (serialize_long_property p).map Prod.fst) ↔ p.domain_validator.isSome)) := by
  refine ⟨fun l u => rfl, fun u => rfl, fun l => rfl, rfl, by decide, by decide, by decide,
    ?_, ?_⟩
  · intro p
    cases hd : p.default_value <;> cases hr : p.domain_validator <;>
      simp [serialize_integer_property, hd, hr]
  · intro p
    cases hd : p.default_value <;> cases hr : p.domain_validator <;>
      simp [serialize_long_property, hd, hr]

/-- C1: the integer and long property parsers consume at most three
meta-clauses after the header: whenever the clause dispatcher can parse four
clauses in sequence, the property parser consumes only the first three,
returns the position before the fourth clause verbatim as remainder, and
succeeds; and when no clause alternative matches at all it stops at the
header without error. -/
theorem meta_clauses_bounded_to_three :
    (∀ (s s1 s2 s3 s4 s5 : List Char) (hdr : String × Bool)
        (m1 m2 m3 m4 : IntegerMetaProperty),
      primitive_property .IntegerPropertyType s = some (s1, hdr) →
      integerPropertyMeta s1 = some (s2, m1) →
      integerPropertyMeta s2 = some (s3, m2) →
      integerPropertyMeta s3 = some (s4, m3) →
      integerPropertyMeta s4 = some (s5, m4) →
      integer_property s =
        some (s4, apply_integer_metas (initIntegerProperty hdr.1 hdr.2) [m1, m2, m3])) ∧
    (∀ (s s1 s2 s3 s4 s5 : List Char) (hdr : String × Bool)
        (m1 m2 m3 m4 : LongMetaProperty),
      primitive_property .LongPropertyType s = some (s1, hdr) →
      longPropertyMeta s1 = some (s2, m1) →
      longPropertyMeta s2 = some (s3, m2) →
      longPropertyMeta s3 = some (s4, m3) →
      longPropertyMeta s4 = some (s5, m4) →
      long_property s =
        some (s4, apply_long_metas (initLongProperty hdr.1 hdr.2) [m1, m2, m3])) ∧
    (∀ (s s1 : List Char) (hdr : String × Bool),
      primitive_property .IntegerPropertyType s = some (s1, hdr) →
      integerPropertyMeta s1 = none →
      integer_property s = some (s1, initIntegerProperty hdr.1 hdr.2)) ∧
    (∀ (s s1 : List Char) (hdr : String × Bool),
      primitive_property .LongPropertyType s = some (s1, hdr) →
      longPropertyMeta s1 = none →
      long_property s = some (s1, initLongProperty hdr.1 hdr.2)) := by
  refine ⟨?_, ?_, ?_, ?_⟩
  · intro s s1 s2 s3 s4 s5 hdr m1 m2 m3 m4 hh h1 h2 h3 h4
    simp [integer_property, fold_many_0_3, hh, h1, h2, h3]
  · intro s s1 s2 s3 s4 s5 hdr m1 m2 m3 m4 hh h1 h2 h3 h4
    simp [long_property, fold_many_0_3, hh, h1, h2, h3]
  · intro s s1 hdr hh h1
    simp [integer_property, fold_many_0_3, hh, h1, apply_integer_metas]
  · intro s s1 hdr hh h1
    simp [long_property, fold_many_0_3, hh, h1, apply_long_metas]

/-- C1 witness: four syntactically valid `optional` clauses; only the first
three are consumed and the fourth remains in the remainder. -/
theorem meta_clauses_bounded_to_three_witness :
    integer_property "o Integer n optional optional optional optional".toList =
      some (" optional".toList,
        apply_integer_metas (initIntegerProperty "n" false)
          [.Optional, .Optional, .Optional]) :=
  meta_clauses_bounded_to_three.1
    "o Integer n optional optional optional optional".toList
    " optional optional optional optional".toList
    " optional optional optional".toList
    " optional optional".toList
    " optional".toList
    []
    ("n", false) .Optional .Optional .Optional .Optional
    (by decide) (by decide) (by decide) (by decide) (by decide)

/-- C2: the clause fold applies clauses in encounter order and a later clause
of the same kind silently overwrites an earlier one — two defaults keep the
later default, two ranges the later range, two optional flags stay optional —
and a parse that dispatches two clauses succeeds with exactly their fold,
never reporting a duplicate as an error. -/
theorem duplicate_meta_last_write_wins :
    (∀ (p : IntegerProperty) (x y : Int),
      (apply_integer_metas p [.Default x, .Default y]).default_value = some y) ∧
    (∀ (p : IntegerProperty) (d1 d2 : IntegerDomainValidator),
      (apply_integer_metas p [.Domain d1, .Domain d2]).domain_validator = some d2) ∧
    (∀ p : IntegerProperty, (apply_integer_metas p [.Optional, .Optional]).is_optional = true) ∧
    (∀ (p : IntegerProperty) (ms1 ms2 : List IntegerMetaProperty),
      apply_integer_metas p (ms1 ++ ms2) = apply_integer_metas (apply_integer_metas p ms1) ms2) ∧
    (∀ (s s1 s2 s3 : List Char) (hdr : String × Bool) (m1 m2 : IntegerMetaProperty),
      primitive_property .IntegerPropertyType s = some (s1, hdr) →
      integerPropertyMeta s1 = some (s2, m1) →
      integerPropertyMeta s2 = some (s3, m2) →
      integerPropertyMeta s3 = none →
      integer_property s =
        some (s3, apply_integer_metas (initIntegerProperty hdr.1 hdr.2) [m1, m2])) ∧
    (∀ (p : LongProperty) (x y : Int),
      (apply_long_metas p [.Default x, .Default y]).default_value = some y) ∧
    (∀ (p : LongProperty) (d1 d2 : LongDomainValidator),
      (apply_long_metas p [.Domain d1, .Domain d2]).domain_validator = some d2) ∧
    (∀ p : LongProperty, (apply_long_metas p [.Optional, .Optional]).is_optional = true) ∧
    (∀ (s s1 s2 s3 : List Char) (hdr : String × Bool) (m1 m2 : LongMetaProperty),
      primitive_property .LongPropertyType s = some (s1, hdr) →
      longPropertyMeta s1 = some (s2, m1) →
      longPropertyMeta s2 = some (s3, m2) →
      longPropertyMeta s3 = none →
      long_property s =
        some (s3, apply_long_metas (initLongProperty hdr.1 hdr.2) [m1, m2])) := by
  refine ⟨fun p x y => rfl, fun p d1 d2 => rfl, fun p => rfl,
    fun p ms1 ms2 => List.foldl_append _ _ _ _, ?_,
    fun p x y => rfl, fun p d1 d2 => rfl, fun p => rfl, ?_⟩
  · intro s s1 s2 s3 hdr m1 m2 hh h1 h2 h3
    simp [integer_property, fold_many_0_3, hh, h1, h2, h3]
  · intro s s1 s2 s3 hdr m1 m2 hh h1 h2 h3
    simp [long_property, fold_many_0_3, hh, h1, h2, h3]

/-- C2 witness: two default clauses on one property; the parse succeeds and
the record keeps the later value 2. -/
theorem duplicate_meta_last_write_wins_witness :
    integer_property "o Integer n default=1 default=2".toList =
      some ([], apply_integer_metas (initIntegerProperty "n" false) [.Default 1, .Default 2]) ∧
    (apply_integer_metas (initIntegerProperty "n" false)
      [.Default 1, .Default 2]).default_value = some 2 :=
  ⟨duplicate_meta_last_write_wins.2.2.2.2.1
      "o Integer n default=1 default=2".toList
      " default=1 default=2".toList
      " default=2".toList
      []
      ("n", false) (.Default 1) (.Default 2)
      (by decide) (by decide) (by decide) (by decide),
    duplicate_meta_last_write_wins.1 (initIntegerProperty "n" false) 1 2⟩

/-- Applying two integer meta clauses of distinct kinds commutes. -/
theorem applyIntegerMeta_comm (p : IntegerProperty) (a b : IntegerMetaProperty)
    (h : integerMetaKind a ≠ integerMetaKind b) :
    applyIntegerMeta (applyIntegerMeta p a) b = applyIntegerMeta (applyIntegerMeta p b) a := by
  cases a <;> cases b <;>
    first
    | exact absurd rfl h
    | (cases p; rfl)

/-- Applying two long meta clauses of distinct kinds commutes. -/
theorem applyLongMeta_comm (p : LongProperty) (a b : LongMetaProperty)
    (h : longMetaKind a ≠ longMetaKind b) :
    applyLongMeta (applyLongMeta p a) b = applyLongMeta (applyLongMeta p b) a := by
  cases a <;> cases b <;>
    first
    | exact absurd rfl h
    | (cases p; rfl)

/-- The integer clause fold is invariant under permutation of a list of
clauses with pairwise distinct kinds. -/
theorem apply_integer_metas_perm {ms ms' : List IntegerMetaProperty} (hp : ms.Perm ms') :
    ms.Pairwise (fun a b => integerMetaKind a ≠ integerMetaKind b) →
    ∀ p, apply_integer_metas p ms = apply_integer_metas p ms' := by
  induction hp with
  | nil => intro _ p; rfl
  | cons x hp ih =>
    intro hw p
    simp only [apply_integer_metas, List.foldl_cons]
    exact ih (List.pairwise_cons.mp hw).2 (applyIntegerMeta p x)
  | swap x y l =>
    intro hw p
    have hxy : integerMetaKind y ≠ integerMetaKind x :=
      (List.pairwise_cons.mp hw).1 x (by simp)
    simp only [apply_integer_metas, List.foldl_cons]
    rw [applyIntegerMeta_comm p y x hxy]
  | trans h1 h2 ih1 ih2 =>
    intro hw p
    have hw2 := (h1.pairwise_iff (fun {_ _} hxy => fun e => hxy e.symm)).mp hw
    exact (ih1 hw p).trans (ih2 hw2 p)

/-- The long clause fold is invariant under permutation of a list of clauses
with pairwise distinct kinds. -/
theorem apply_long_metas_perm {ms ms' : List LongMetaProperty} (hp : ms.Perm ms') :
    ms.Pairwise (fun a b => longMetaKind a ≠ longMetaKind b) →
    ∀ p, apply_long_metas p ms = apply_long_metas p ms' := by
  induction hp with
  | nil => intro _ p; rfl
  | cons x hp ih =>
    intro hw p
    simp only [apply_long_metas, List.foldl_cons]
    exact ih (List.pairwise_cons.mp hw).2 (applyLongMeta p x)
  | swap x y l =>
    intro hw p
    have hxy : longMetaKind y ≠ longMetaKind x :=
      (List.pairwise_cons.mp hw).1 x (by simp)
    simp only [apply_long_metas, List.foldl_cons]
    rw [applyLongMeta_comm p y x hxy]
  | trans h1 h2 ih1 ih2 =>
    intro hw p
    have hw2 := (h1.pairwise_iff (fun {_ _} hxy => fun e => hxy e.symm)).mp hw
    exact (ih1 hw p).trans (ih2 hw2 p)

/-- C4: `o Integer baz range=[0,10] optional` yields the record with
domain validator `{lower := 0, upper := 10}` and `is_optional = true`, the
permuted clause text yields the same record, and in general permuting a
sequence of meta clauses of pairwise distinct kinds does not change the
folded property record. -/
theorem meta_clause_order_invariant :
    integer_property_str "o Integer baz range=[0,10] optional" =
      some ("",
        { classTag := "IntegerProperty", name := "baz", is_optional := true,
          is_array := false, default_value := none,
          domain_validator := some ⟨some 0, some 10⟩ }) ∧
    integer_property_str "o Integer baz optional range=[0,10]" =
      some ("",
        { classTag := "IntegerProperty", name := "baz", is_optional := true,
          is_array := false, default_value := none,
          domain_validator := some ⟨some 0, some 10⟩ }) ∧
    (∀ (p : IntegerProperty) (ms ms' : List IntegerMetaProperty), ms.Perm ms' →
      ms.Pairwise (fun a b => integerMetaKind a ≠ integerMetaKind b) →
      apply_integer_metas p ms = apply_integer_metas p ms') ∧
    (∀ (p : LongProperty) (ms ms' : List LongMetaProperty), ms.Perm ms' →
      ms.Pairwise (fun a b => longMetaKind a ≠ longMetaKind b) →
      apply_long_metas p ms = apply_long_metas p ms') := by
  refine ⟨by decide, by decide, ?_, ?_⟩
  · intro p ms ms' hp hw
    exact apply_integer_metas_perm hp hw p
  · intro p ms ms' hp hw
    exact apply_long_metas_perm hp hw p

/-- C4 witness: permuting a concrete domain clause and optional flag leaves
the folded record unchanged. -/
theorem meta_clause_order_invariant_witness :
    apply_integer_metas (initIntegerProperty "baz" false)
        [.Domain ⟨some 0, some 10⟩, .Optional] =
      apply_integer_metas (initIntegerProperty "baz" false)
        [.Optional, .Domain ⟨some 0, some 10⟩] :=
  meta_clause_order_invariant.2.2.1 (initIntegerProperty "baz" false)
    [.Domain ⟨some 0, some 10⟩, .Optional]
    [.Optional, .Domain ⟨some 0, some 10⟩]
    (List.Perm.swap _ _ _) (by decide)

/-- A wellformed semver part never makes the loop body of `semver` panic. -/
theorem semverStep_wf (sv : SemVer) (part : Pair) (hwf : wfSemVerPart part = true) :
    ∃ sv', semverStep sv part = some sv' := by
  rcases part with ⟨r, s, inner⟩
  cases r
  case Version =>
    cases inner with
    | nil => exact ⟨sv, rfl⟩
    | cons v t =>
      cases t with
      | cons w t2 => simp [wfSemVerPart, Pair.rule, Pair.inner] at hwf
      | nil =>
        simp only [wfSemVerPart, Pair.rule, Pair.inner] at hwf
        rcases v with ⟨vr, vs, vinner⟩
        cases vr <;> simp [wfVersionShape, Pair.rule, Pair.inner] at hwf
        · obtain ⟨a, b, c, rfl⟩ := List.length_eq_three.mp hwf
          exact ⟨_, rfl⟩
        · obtain ⟨a, b, rfl⟩ := List.length_eq_two.mp hwf
          exact ⟨_, rfl⟩
        · obtain ⟨a, rfl⟩ := List.length_eq_one.mp hwf
          exact ⟨_, rfl⟩
  case Prerelease =>
    cases inner with
    | nil => exact ⟨sv, rfl⟩
    | cons a t => exact ⟨_, rfl⟩
  case Build =>
    cases inner with
    | nil => exact ⟨sv, rfl⟩
    | cons a t => exact ⟨_, rfl⟩
  all_goals simp [wfSemVerPart, Pair.rule, Pair.inner] at hwf

/-- The loop of `semver` runs to completion over any list of wellformed
parts. -/
theorem semverFold_wf (l : List Pair) :
    ∀ sv : SemVer, l.all wfSemVerPart = true →
      ∃ v, List.foldlM semverStep sv l = some v := by
  induction l with
  | nil => intro sv _; exact ⟨sv, rfl⟩
  | cons part rest ih =>
    intro sv hall
    rw [List.all_cons, Bool.and_eq_true] at hall
    obtain ⟨sv', hstep⟩ := semverStep_wf sv part hall.1
    obtain ⟨v, hfold⟩ := ih sv' hall.2
    exact ⟨v, by simp [List.foldlM, hstep, hfold]⟩

/-- `semver` succeeds on every pair a successful `Rule::SemVer` match can
produce. -/
theorem semver_wf_total (p : Pair) (hwf : wfSemVerPair p = true) :
    ∃ v, semver p = some v := by
  simp only [wfSemVerPair, Bool.and_eq_true] at hwf
  exact semverFold_wf p.inner SemVer.init hwf.2

/-- `namespace` succeeds on every pair a successful `Rule::Namespace` match
can produce, and the resulting `version` field is `Some` exactly when the
declaration node is a `VersionedQualifiedNamespace`. -/
theorem namespaceOfPair_wf (p : Pair) (hwf : wfNamespacePair p = true) :
    ∃ ns, namespaceOfPair p = some ns ∧
      (ns.version.isSome = true ↔ writtenWithVersion p = true) := by
  rcases p with ⟨r, s, inner⟩
  simp only [wfNamespacePair, Bool.and_eq_true, beq_iff_eq, Pair.rule, Pair.inner] at hwf
  obtain ⟨rfl, hwf⟩ := hwf
  cases inner with
  | nil => simp at hwf
  | cons q t =>
    cases t with
    | cons w t1 => simp at hwf
    | nil =>
      rcases q with ⟨qr, qs, qinner⟩
      simp only [Pair.inner] at hwf
      cases qinner with
      | nil => simp at hwf
      | cons d t2 =>
        cases t2 with
        | cons w t3 => simp at hwf
        | nil =>
          rcases d with ⟨dr, ds, dinner⟩
          cases dr <;> simp only [Pair.rule] at hwf <;> try simp at hwf
          case QualifiedName =>
            refine ⟨⟨ds, none⟩, rfl, ?_⟩
            simp [writtenWithVersion, Pair.inner, Pair.rule]
          case VersionedQualifiedNamespace =>
            cases dinner with
            | nil => simp at hwf
            | cons qn t4 =>
              cases t4 with
              | nil => simp at hwf
              | cons sv t5 =>
                cases t5 with
                | cons w t6 => simp at hwf
                | nil =>
                  simp only [Bool.and_eq_true, beq_iff_eq] at hwf
                  obtain ⟨⟨hqn, hsv⟩, hwfsv⟩ := hwf
                  obtain ⟨v, hv⟩ := semver_wf_total sv hwfsv
                  rcases qn with ⟨qnr, qns, qninner⟩
                  simp only [Pair.rule] at hqn
                  subst hqn
                  rcases sv with ⟨svr, svs, svinner⟩
                  simp only [Pair.rule] at hsv
                  subst hsv
                  refine ⟨⟨qns, some v⟩, ?_, by simp [writtenWithVersion, Pair.inner, Pair.rule]⟩
                  simp [namespaceOfPair, Pair.inner, Pair.rule, List.foldlM, namespaceStep,
                    Pair.str, hv, Namespace.init]

/-- C10: given a pair produced by a successful match of the corresponding
grammar rule, `semver` and `namespace` never panic — every `unreachable!()`
branch is dead and the `ver[0]`, `ver[1]`, `ver[2]` accesses are in bounds
because the matched sub-rule fixes the number of numeric components. -/
theorem pair_functions_never_panic :
    (∀ p : Pair, wfSemVerPair p = true → ∃ v, semver p = some v) ∧
    (∀ p : Pair, wfNamespacePair p = true → ∃ ns, namespaceOfPair p = some ns) := by
  refine ⟨semver_wf_total, ?_⟩
  intro p hwf
  obtain ⟨ns, hns, _⟩ := namespaceOfPair_wf p hwf
  exact ⟨ns, hns⟩

/-- C10 witness: the no-panic theorem applied to concrete wellformed pairs
for `1.2.3` and `namespace a.b`. -/
theorem pair_functions_never_panic_witness :
    (∃ v, semver (Pair.mk .SemVer "1.2.3"
        [Pair.mk .Version "1.2.3" [Pair.mk .MajorMinorPatchVersion "1.2.3"
          [numPair ['1'], numPair ['2'], numPair ['3']]]]) = some v) ∧
    (∃ ns, namespaceOfPair (Pair.mk .Namespace "namespace a.b"
        [Pair.mk .QualifiedNamespace "a.b" [Pair.mk .QualifiedName "a.b" []]]) = some ns) :=
  ⟨pair_functions_never_panic.1 (Pair.mk .SemVer "1.2.3"
      [Pair.mk .Version "1.2.3" [Pair.mk .MajorMinorPatchVersion "1.2.3"
        [numPair ['1'], numPair ['2'], numPair ['3']]]]) (by decide),
    pair_functions_never_panic.2 (Pair.mk .Namespace "namespace a.b"
      [Pair.mk .QualifiedNamespace "a.b" [Pair.mk .QualifiedName "a.b" []]]) (by decide)⟩

/-- C8: parsing `namespace com.foo.bar` yields name `com.foo.bar` and no
version, parsing `namespace com.example.foo@1.0.42` yields the version
`1.0.42`, and in general the `version` field of the parsed namespace is
`Some` exactly when an `@`-suffixed version was written. -/
theorem namespace_version_exactly_when_written :
    namespaceParse "namespace com.foo.bar" = some ⟨"com.foo.bar", none⟩ ∧
    namespaceParse "namespace com.example.foo@1.0.42" =
      some ⟨"com.example.foo", some ⟨1, 0, 42, "", ""⟩⟩ ∧
    (∀ p : Pair, wfNamespacePair p = true →
      ∃ ns, namespaceOfPair p = some ns ∧
        (ns.version.isSome = true ↔ writtenWithVersion p = true)) := by
  exact ⟨by decide, by decide, namespaceOfPair_wf⟩

/-- C8 witness: the general version-presence fact applied to a concrete
unversioned namespace pair. -/
theorem namespace_version_exactly_when_written_witness :
    ∃ ns, namespaceOfPair (Pair.mk .Namespace "namespace c.d"
        [Pair.mk .QualifiedNamespace "c.d" [Pair.mk .QualifiedName "c.d" []]]) = some ns ∧
      (ns.version.isSome = true ↔
        writtenWithVersion (Pair.mk .Namespace "namespace c.d"
          [Pair.mk .QualifiedNamespace "c.d" [Pair.mk .QualifiedName "c.d" []]]) = true) :=
  namespace_version_exactly_when_written.2.2 (Pair.mk .Namespace "namespace c.d"
    [Pair.mk .QualifiedNamespace "c.d" [Pair.mk .QualifiedName "c.d" []]]) (by decide)

/-- C9 counterexample: the top-level `parse` does not aggregate the parsed
namespace into the returned `Model`: two inputs with different namespaces
both succeed and return the very same (field-less) `Model` value, while the
namespace parser distinguishes them — so the returned `Model` cannot hold
the parsed `Namespace`. -/
theorem parse_discards_namespace :
    parse "namespace a.b" = parse "namespace c.d" ∧
    parse "namespace a.b" = some Model.mk ∧
    namespaceParse "namespace a.b" ≠ namespaceParse "namespace c.d" := by
  refine ⟨by decide, by decide, by decide⟩

/-- C9 (amended): on an input consisting of exactly one namespace
declaration terminated by end-of-input, `parse` succeeds and returns the
default `Model`, which has no fields and does not hold the parsed namespace;
it fails on any unrecognized top-level construct. -/
theorem parse_returns_default_model :
    (∀ (s : String) (m : Model), parse s = some m → parse s = some Model.mk) ∧
    parse "namespace com.foo.bar" = some Model.mk ∧
    parse "o Integer foo" = none := by
  refine ⟨?_, by decide, by decide⟩
  intro s m h
  cases m
  exact h

/-- C9 witness: the amended theorem applied at a concrete namespace input. -/
theorem parse_returns_default_model_witness :
    parse "namespace a.b" = some Model.mk :=
  parse_returns_default_model.1 "namespace a.b" Model.mk (by decide)

end Concerto
